import Mathlib

/-
  Verification development for the ChessBot rules engine.

  The definitions below are a shallow embedding of the JavaScript sources:
  the piece module (Square, Piece, Pawn, Rook, Knight, Bishop, Queen, King),
  the board module (Board) and the game module (GameState, Game).

  Modelling conventions:
  * JavaScript numbers used as board coordinates are modelled as Int
    (offsets can leave the 1..8 range and must not be clamped).
  * The source keys the piece dictionary by the string Square.asString();
    asString is injective on valid squares, so the dictionary is modelled
    as an association list keyed by the structural Square value.
  * Pieces cache a validMoves array that the source recomputes after every
    board mutation; since every observation point in the source follows such
    a recomputation and the candidates depend only on the piece location,
    its color and the castling rights, the cache is modelled as the pure
    function pieceCandidates evaluated on demand.
  * The attack query can recurse (isAttacked consults King.isMoveValid,
    whose castle branch consults isAttacked again), and on unreachable
    boards the source would not terminate; the embedding therefore takes an
    explicit fuel argument, which is large enough on every board appearing
    in a theorem below.
  * Comparison of the en passant field in the source uses JavaScript
    reference equality; the embedding uses structural equality on
    Option Square, which agrees with the source whenever the compared
    fields are undefined or the identical object.
-/

namespace ChessBot

/-- Color of a chess piece, from the Color enumeration of the pieces module. -/
inductive Color where
  | white
  | black
deriving DecidableEq, Repr

/-- Gets the opposite color (Color.swap in the source). -/
def Color.swap : Color → Color
  | Color.white => Color.black
  | Color.black => Color.white

/-- Type of a chess piece, from the Type enumeration of the pieces module. -/
inductive PieceType where
  | pawn
  | rook
  | knight
  | bishop
  | queen
  | king
deriving DecidableEq, Repr

/-- A square on the board: fileNumber 1..8 is A..H, rankNumber 1..8.
Offsets may produce out of range values, hence Int fields. -/
structure Square where
  fileNumber : Int
  rankNumber : Int
deriving DecidableEq, Repr

/-- Square.relative from the source: unchecked arithmetic offset. -/
def Square.relative (s : Square) (fileRelative rankRelative : Int) : Square :=
  ⟨s.fileNumber + fileRelative, s.rankNumber + rankRelative⟩

/-- Square.isValid from the source: both coordinates within 1..8. -/
def Square.isValid (s : Square) : Bool :=
  decide (1 ≤ s.rankNumber ∧ 1 ≤ s.fileNumber ∧ s.rankNumber ≤ 8 ∧ s.fileNumber ≤ 8)

/-- Fuel-bounded loop body of Square.getRelativesUntilInvalid. For any
nonzero offset the source loop pushes at most 8 valid squares before the
next square leaves the board, so fuel 9 reproduces the source exactly. -/
def relativesAux (start : Square) (df dr : Int) : Nat → List Square
  | 0 => []
  | Nat.succ n =>
    let next := start.relative df dr
    if next.isValid then next :: relativesAux next df dr n else []

/-- Square.getRelativesUntilInvalid from the source: repeatedly applies the
offset and collects squares until one falls outside the board. -/
def Square.getRelativesUntilInvalid (s : Square) (df dr : Int) : List Square :=
  relativesAux s df dr 9

/-- Square.getFileLetter from the source: String.fromCharCode applies a
ToUint16 conversion, modelled by emod 65536. -/
def Square.getFileLetter (s : Square) : Char :=
  Char.ofNat ((65 + s.fileNumber - 1).emod 65536).toNat

/-- Square.asString from the source: file letter followed by the rank
number rendered in decimal. -/
def Square.asString (s : Square) : String :=
  s.getFileLetter.toString ++ toString s.rankNumber

/-- Square.pathTo from the source: the open interval of squares strictly
between s and other along a shared rank, file or diagonal; empty for any
other geometric relationship. The pop loop of the source yields the prefix
of the ray strictly before other when other lies on the ray, and the empty
list otherwise. -/
def Square.pathTo (s other : Square) : List Square :=
  if other = s then []
  else
    let fileChange := other.fileNumber - s.fileNumber
    let rankChange := other.rankNumber - s.rankNumber
    let fileChangeReduced := if fileChange = 0 then 0 else fileChange / (fileChange.natAbs : Int)
    let rankChangeReduced := if rankChange = 0 then 0 else rankChange / (rankChange.natAbs : Int)
    if fileChange = 0 ∨ rankChange = 0 ∨ fileChange.natAbs = rankChange.natAbs then
      let raw := s.getRelativesUntilInvalid fileChangeReduced rankChangeReduced
      if raw.contains other then raw.takeWhile (fun q => !(q == other)) else []
    else []

/-- Square.fromString from the source: exactly two characters, converted by
character code arithmetic, then validated; undefined becomes none. -/
def Square.fromString (s : String) : Option Square :=
  match s.data with
  | [c0, c1] =>
    let square : Square := ⟨(c0.toNat : Int) - 65 + 1, (c1.toNat : Int) - 49 + 1⟩
    if square.isValid then some square else none
  | _ => none

/-- A piece as stored on the board: its type and color. The location is the
association list key, and the cached candidate list is recomputed on demand. -/
structure Piece where
  type : PieceType
  color : Color
deriving DecidableEq, Repr

/-- A move record (Move class of the moves module). The piece field keeps
the type and color of the moved piece. -/
structure Move where
  piece : Piece
  fromSq : Square
  toSq : Square
  capture : Bool
  extra : Option String
deriving DecidableEq, Repr

/-- Castling rights for both sides and both colors (Board.castlingRights). -/
structure CastlingRights where
  shortWhite : Bool
  shortBlack : Bool
  longWhite : Bool
  longBlack : Bool
deriving DecidableEq, Repr

/-- Lookup castlingRights.short of the source. -/
def CastlingRights.short (cr : CastlingRights) : Color → Bool
  | Color.white => cr.shortWhite
  | Color.black => cr.shortBlack

/-- Lookup castlingRights.long of the source. -/
def CastlingRights.long (cr : CastlingRights) : Color → Bool
  | Color.white => cr.longWhite
  | Color.black => cr.longBlack

/-- Update castlingRights.short of the source. -/
def CastlingRights.setShort (cr : CastlingRights) (c : Color) (v : Bool) : CastlingRights :=
  match c with
  | Color.white => { cr with shortWhite := v }
  | Color.black => { cr with shortBlack := v }

/-- Update castlingRights.long of the source. -/
def CastlingRights.setLong (cr : CastlingRights) (c : Color) (v : Bool) : CastlingRights :=
  match c with
  | Color.white => { cr with longWhite := v }
  | Color.black => { cr with longBlack := v }

/-- The Board class of the board module: the piece dictionary (keyed in the
source by Square.asString, here by the structural square), the castling
rights, the en passant square and the last move. The presentation field
highlightedSquares and the lazily cached hash are omitted: the former is
never read by the engine, and calculateHash is modelled as a pure function
because every mutation path of the source invalidates the cache. -/
structure Board where
  pieces : List (Square × Piece)
  castlingRights : CastlingRights
  enPassantSquare : Option Square
  lastMove : Option Move
deriving DecidableEq, Repr

/-- Board.getPiece from the source: dictionary lookup. -/
def Board.getPiece (b : Board) (location : Square) : Option Piece :=
  match b.pieces.find? (fun e => e.1 == location) with
  | some e => some e.2
  | none => none

/-- Dictionary assignment: replace the entry with the given key, or append
a new entry, mirroring JavaScript object key update order. -/
def setEntry : List (Square × Piece) → Square → Piece → List (Square × Piece)
  | [], location, p => [(location, p)]
  | e :: rest, location, p =>
    if e.1 = location then (location, p) :: rest else e :: setEntry rest location p

/-- Board.setPiece from the source; the source keys by piece.location,
here the location is passed alongside the piece. -/
def Board.setPiece (b : Board) (location : Square) (p : Piece) : Board :=
  { b with pieces := setEntry b.pieces location p }

/-- Board.removePieceAt from the source: delete the dictionary key. -/
def Board.removePieceAt (b : Board) (location : Square) : Board :=
  { b with pieces := b.pieces.filter (fun e => !(e.1 == location)) }

/-- Board.isPathClear from the source: every square of the path is empty. -/
def Board.isPathClear (b : Board) (path : List Square) : Bool :=
  path.all (fun sq => (b.getPiece sq).isNone)

/-- Pawn.getAdvanceDirection from the source. -/
def advanceDirection (c : Color) : Int :=
  if c = Color.white then 1 else -1

/-- The recalculateValidMoves method of each piece class: the geometric
candidate squares, before board level validation. The king candidates
include the castle offsets exactly when the corresponding castling right
is held, as in the source. -/
def pieceCandidates (cr : CastlingRights) (p : Piece) (loc : Square) : List Square :=
  match p.type with
  | PieceType.pawn =>
    let d := advanceDirection p.color
    let base := [loc.relative 0 d, loc.relative 1 d, loc.relative (-1) d]
    let withDouble :=
      if (loc.rankNumber = 2 ∧ p.color = Color.white) ∨
         (loc.rankNumber = 7 ∧ p.color = Color.black) then
        base ++ [loc.relative 0 (d * 2)]
      else base
    withDouble.filter Square.isValid
  | PieceType.rook =>
    loc.getRelativesUntilInvalid (-1) 0 ++ loc.getRelativesUntilInvalid 1 0 ++
    loc.getRelativesUntilInvalid 0 1 ++ loc.getRelativesUntilInvalid 0 (-1)
  | PieceType.knight =>
    [loc.relative 1 2, loc.relative (-1) 2, loc.relative 1 (-2), loc.relative (-1) (-2),
     loc.relative 2 1, loc.relative (-2) 1, loc.relative 2 (-1), loc.relative (-2) (-1)].filter
      Square.isValid
  | PieceType.bishop =>
    loc.getRelativesUntilInvalid (-1) (-1) ++ loc.getRelativesUntilInvalid (-1) 1 ++
    loc.getRelativesUntilInvalid 1 (-1) ++ loc.getRelativesUntilInvalid 1 1
  | PieceType.queen =>
    loc.getRelativesUntilInvalid (-1) (-1) ++ loc.getRelativesUntilInvalid (-1) 1 ++
    loc.getRelativesUntilInvalid 1 (-1) ++ loc.getRelativesUntilInvalid 1 1 ++
    loc.getRelativesUntilInvalid (-1) 0 ++ loc.getRelativesUntilInvalid 1 0 ++
    loc.getRelativesUntilInvalid 0 1 ++ loc.getRelativesUntilInvalid 0 (-1)
  | PieceType.king =>
    let base :=
      [loc.relative (-1) (-1), loc.relative (-1) 1, loc.relative 1 (-1), loc.relative 1 1,
       loc.relative (-1) 0, loc.relative 1 0, loc.relative 0 1, loc.relative 0 (-1)]
    let withLong := if cr.long p.color then base ++ [loc.relative (-2) 0] else base
    let withShort := if cr.short p.color then withLong ++ [loc.relative 2 0] else withLong
    withShort.filter Square.isValid

def promoQ : String := "Q"
def promoR : String := "R"
def promoB : String := "B"
def promoK : String := "K"
def promoN : String := "N"

/-- The promotion guard of Pawn.isMoveValid: the move is rejected when
extra is absent or empty, is not a single character, or is not found in
the string QRBKN; for single characters the indexOf test is membership in
that five letter set. -/
def promotionChoiceValid (extra : Option String) : Bool :=
  match extra with
  | none => false
  | some s =>
    if s.length ≠ 1 then false
    else decide (s = promoQ ∨ s = promoR ∨ s = promoB ∨ s = promoK ∨ s = promoN)

/-- The body of Pawn.isMoveValid after the candidate membership check of
the base class: forward moves need the destination empty, diagonal moves
need an enemy piece at the destination or the en passant square, and a
move onto rank 1 or 8 needs a valid promotion choice. -/
def pawnIsMoveValid (b : Board) (loc : Square) (c : Color) (toSq : Square)
    (extra : Option String) : Bool :=
  let d := advanceDirection c
  let branch : Bool :=
    if loc.fileNumber = toSq.fileNumber then
      (if loc.rankNumber + d = toSq.rankNumber then true
       else if loc.rankNumber = 2 ∨ loc.rankNumber = 7 then
         decide (loc.rankNumber + d * 2 = toSq.rankNumber)
       else false) &&
      (b.getPiece toSq).isNone
    else if toSq.fileNumber = loc.fileNumber - 1 ∨ toSq.fileNumber = loc.fileNumber + 1 then
      let capturedPiece :=
        if b.enPassantSquare = some toSq then
          b.getPiece ⟨toSq.fileNumber, loc.rankNumber⟩
        else b.getPiece toSq
      match capturedPiece with
      | none => false
      | some cp =>
        if cp.color = c then false else decide (loc.rankNumber + d = toSq.rankNumber)
    else false
  branch && (if toSq.rankNumber = 1 ∨ toSq.rankNumber = 8 then promotionChoiceValid extra else true)

/-- Board.isAttacked from the source, parameterised by the move validity
oracle so that the fuelled recursion can be tied afterwards: some piece
(optionally filtered by color) has the square among its candidates and the
move validates with the promotion letter Q. -/
def isAttackedGiven (valid : Board → Square → Piece → Square → Option String → Bool)
    (b : Board) (square : Square) (color : Option Color) : Bool :=
  b.pieces.any (fun e =>
    (match color with
     | some c => c == e.2.color
     | none => true) &&
    (pieceCandidates b.castlingRights e.2 e.1).any
      (fun mv => mv == square && valid b e.1 e.2 mv (some promoQ)))

/-- Board.isInCheck from the source: some king of the given color stands on
a square attacked by the opposite color. -/
def isInCheckGiven (valid : Board → Square → Piece → Square → Option String → Bool)
    (b : Board) (c : Color) : Bool :=
  b.pieces.any (fun e =>
    e.2.type == PieceType.king && e.2.color == c &&
    isAttackedGiven valid b e.1 (some (Color.swap c)))

def strE1 : String := "E1"
def strE8 : String := "E8"

/-- King._validateCanCastle from the source: the king must stand on its
home square (compared through asString), the rook argument must be a rook
of the same color, the king must not be in check, and the path from the
king to the rook must be clear. The rook argument of the source is the
piece found at rookLoc, whose location field equals that key. -/
def validateCanCastleGiven (valid : Board → Square → Piece → Square → Option String → Bool)
    (b : Board) (loc : Square) (c : Color) (rookLoc : Square) : Bool :=
  if (c = Color.white ∧ loc.asString ≠ strE1) ∨ (c = Color.black ∧ loc.asString ≠ strE8) then
    false
  else
    match b.getPiece rookLoc with
    | none => false
    | some rook =>
      if rook.color ≠ c ∨ rook.type ≠ PieceType.rook then false
      else if isInCheckGiven valid b c then false
      else b.isPathClear (loc.pathTo rookLoc)

/-- King.canCastleShort from the source: the short castling right is held,
the square on file F of the king rank is not attacked by the opponent, and
_validateCanCastle succeeds for the piece on file H of the king rank. -/
def canCastleShortGiven (valid : Board → Square → Piece → Square → Option String → Bool)
    (b : Board) (loc : Square) (c : Color) : Bool :=
  if !(b.castlingRights.short c) then false
  else if isAttackedGiven valid b ⟨6, loc.rankNumber⟩ (some (Color.swap c)) then false
  else validateCanCastleGiven valid b loc c ⟨8, loc.rankNumber⟩

/-- King.canCastleLong from the source: the long castling right is held,
the square on file D of the king rank is not attacked by the opponent, and
_validateCanCastle succeeds for the piece on file A of the king rank. -/
def canCastleLongGiven (valid : Board → Square → Piece → Square → Option String → Bool)
    (b : Board) (loc : Square) (c : Color) : Bool :=
  if !(b.castlingRights.long c) then false
  else if isAttackedGiven valid b ⟨4, loc.rankNumber⟩ (some (Color.swap c)) then false
  else validateCanCastleGiven valid b loc c ⟨1, loc.rankNumber⟩

/-- The isMoveValid method of the piece classes. Every piece first runs the
base class check (destination valid and among the candidates); pawns add
the pawn body, sliding pieces require a clear path, the king evaluates the
castle conditions for a two file move. The fuel bounds the recursion
between the castle branch and the attack query; fuel zero answers false,
and every board in the theorems below is evaluated with ample fuel. -/
def isMoveValidF (fuel : Nat) (b : Board) (loc : Square) (p : Piece) (toSq : Square)
    (extra : Option String) : Bool :=
  match fuel with
  | 0 => false
  | Nat.succ f =>
    if !toSq.isValid then false
    else if !((pieceCandidates b.castlingRights p loc).contains toSq) then false
    else
      match p.type with
      | PieceType.pawn => pawnIsMoveValid b loc p.color toSq extra
      | PieceType.rook => b.isPathClear (loc.pathTo toSq)
      | PieceType.knight => true
      | PieceType.bishop => b.isPathClear (loc.pathTo toSq)
      | PieceType.queen => b.isPathClear (loc.pathTo toSq)
      | PieceType.king =>
        if loc.fileNumber = toSq.fileNumber - 2 then
          canCastleShortGiven (fun b2 l2 p2 t2 e2 => isMoveValidF f b2 l2 p2 t2 e2) b loc p.color
        else if loc.fileNumber = toSq.fileNumber + 2 then
          canCastleLongGiven (fun b2 l2 p2 t2 e2 => isMoveValidF f b2 l2 p2 t2 e2) b loc p.color
        else true

/-- Board.isAttacked at the given fuel. -/
def isAttackedF (f : Nat) (b : Board) (square : Square) (color : Option Color) : Bool :=
  isAttackedGiven (fun b2 l2 p2 t2 e2 => isMoveValidF f b2 l2 p2 t2 e2) b square color

/-- Board.isInCheck at the given fuel. -/
def isInCheckF (f : Nat) (b : Board) (c : Color) : Bool :=
  isInCheckGiven (fun b2 l2 p2 t2 e2 => isMoveValidF f b2 l2 p2 t2 e2) b c

/-- King.canCastleShort at the given fuel. -/
def canCastleShortF (f : Nat) (b : Board) (loc : Square) (c : Color) : Bool :=
  canCastleShortGiven (fun b2 l2 p2 t2 e2 => isMoveValidF f b2 l2 p2 t2 e2) b loc c

/-- King.canCastleLong at the given fuel. -/
def canCastleLongF (f : Nat) (b : Board) (loc : Square) (c : Color) : Bool :=
  canCastleLongGiven (fun b2 l2 p2 t2 e2 => isMoveValidF f b2 l2 p2 t2 e2) b loc c

/-- The default Piece.afterMove side effect: clear the en passant square. -/
def Board.afterMoveDefault (b : Board) : Board :=
  { b with enPassantSquare := none }

/-- The promotion switch of Pawn.afterMove: R yields a rook, B a bishop,
K and N a knight, and anything else (including an absent extra) a queen. -/
def promotionPieceType (extra : Option String) : PieceType :=
  match extra with
  | some s =>
    if s = promoR then PieceType.rook
    else if s = promoB then PieceType.bishop
    else if s = promoK ∨ s = promoN then PieceType.knight
    else PieceType.queen
  | none => PieceType.queen

/-- Pawn.afterMove from the source: capture the passed pawn when the move
lands on the en passant square, clear the en passant square, set it anew
after a double advance, and replace the pawn on a promotion rank. -/
def pawnAfterMove (b : Board) (c : Color) (m : Move) : Board × Move :=
  let d := advanceDirection c
  let step1 :=
    if b.enPassantSquare = some m.toSq then
      (b.removePieceAt ⟨m.toSq.fileNumber, m.fromSq.rankNumber⟩, { m with capture := true })
    else (b, m)
  let b2 := Board.afterMoveDefault step1.1
  let b3 :=
    if m.fromSq.rankNumber + d * 2 = m.toSq.rankNumber then
      { b2 with enPassantSquare := some (m.fromSq.relative 0 d) }
    else b2
  let b4 :=
    if m.toSq.rankNumber = 1 ∨ m.toSq.rankNumber = 8 then
      (b3.removePieceAt m.toSq).setPiece m.toSq ⟨promotionPieceType m.extra, c⟩
    else b3
  (b4, step1.2)

/-- Rook.afterMove from the source: the default side effect, then moving
from file 8 revokes the short right and from file 1 the long right. -/
def rookAfterMove (b : Board) (c : Color) (m : Move) : Board × Move :=
  let b1 := Board.afterMoveDefault b
  let b2 :=
    if m.fromSq.fileNumber = 8 then
      { b1 with castlingRights := b1.castlingRights.setShort c false }
    else b1
  let b3 :=
    if m.fromSq.fileNumber = 1 then
      { b2 with castlingRights := b2.castlingRights.setLong c false }
    else b2
  (b3, m)

/-- King.afterMove from the source: the default side effect, relocation of
the castling rook on a two file move (the source reads the rank from the
already updated king location, which is the destination), and revocation
of both castling rights. The source would fail on a two file move with no
rook on the corner; that path is unreachable because the castle was
validated, and the embedding leaves the board unchanged there. -/
def kingAfterMove (b : Board) (c : Color) (m : Move) : Board × Move :=
  let b1 := Board.afterMoveDefault b
  let relocation : Option (Square × Square) :=
    if m.toSq.fileNumber = m.fromSq.fileNumber + 2 then
      some (⟨8, m.toSq.rankNumber⟩, ⟨6, m.toSq.rankNumber⟩)
    else if m.toSq.fileNumber = m.fromSq.fileNumber - 2 then
      some (⟨1, m.toSq.rankNumber⟩, ⟨4, m.toSq.rankNumber⟩)
    else none
  let b2 :=
    match relocation with
    | some (rookFrom, rookTo) =>
      match b1.getPiece rookFrom with
      | some rook => (b1.removePieceAt rookFrom).setPiece rookTo rook
      | none => b1
    | none => b1
  let b3 := { b2 with castlingRights := (b2.castlingRights.setLong c false).setShort c false }
  (b3, m)

/-- Dispatch of the afterMove virtual call over the piece type. Knights,
bishops and queens only run the default side effect. -/
def afterMoveDispatch (b : Board) (p : Piece) (m : Move) : Board × Move :=
  match p.type with
  | PieceType.pawn => pawnAfterMove b p.color m
  | PieceType.rook => rookAfterMove b p.color m
  | PieceType.king => kingAfterMove b p.color m
  | _ => (Board.afterMoveDefault b, m)

/-- Board.recalculateAllPiecesMoves from the source. The cached candidate
lists are modelled as the pure function pieceCandidates, so recomputing
them leaves the board value unchanged. -/
def Board.recalculateAllPiecesMoves (b : Board) : Board := b

/-- Board.makeMoveIfValid from the source: fail with no mutation when the
origin is empty, the piece rejects the move or the destination holds a
piece of the same color; otherwise capture, relocate, run the afterMove
side effects, recompute candidates and record the last move. The source
mutates in place and returns a boolean; the embedding returns the new
board on success and none on failure. -/
def Board.makeMoveIfValidF (f : Nat) (b : Board) (fromSq toSq : Square)
    (extra : Option String) : Option Board :=
  match b.getPiece fromSq with
  | none => none
  | some piece =>
    if !(isMoveValidF f b fromSq piece toSq extra) then none
    else
      match b.getPiece toSq with
      | some pieceAtDestination =>
        if pieceAtDestination.color = piece.color then none
        else
          let lastMove : Move := ⟨piece, fromSq, toSq, true, extra⟩
          let b1 := ((b.removePieceAt toSq).removePieceAt fromSq).setPiece toSq piece
          let result := afterMoveDispatch b1 piece lastMove
          some { result.1.recalculateAllPiecesMoves with lastMove := some result.2 }
      | none =>
        let lastMove : Move := ⟨piece, fromSq, toSq, false, extra⟩
        let b1 := (b.removePieceAt fromSq).setPiece toSq piece
        let result := afterMoveDispatch b1 piece lastMove
        some { result.1.recalculateAllPiecesMoves with lastMove := some result.2 }

/-- Board.cloneBoard from the source: a deep copy; under value semantics
the clone is the board value itself. -/
def Board.cloneBoard (b : Board) : Board := b

/-- Board.getValidMovesFor from the source: for every piece of the color
and every candidate square, clone the board, attempt the move with the
promotion letter Q, discard it when it fails or leaves the color in check,
and collect the resulting last move records. -/
def Board.getValidMovesForF (f : Nat) (b : Board) (c : Color) : List Move :=
  b.pieces.foldr
    (fun e acc =>
      if e.2.color ≠ c then acc
      else
        (pieceCandidates b.castlingRights e.2 e.1).foldr
          (fun mv acc2 =>
            match b.cloneBoard.makeMoveIfValidF f e.1 mv (some promoQ) with
            | none => acc2
            | some b2 =>
              if isInCheckF f b2 c then acc2
              else
                match b2.lastMove with
                | some lm => lm :: acc2
                | none => acc2)
          acc)
    []

/-- Board.getPiecesCountByType from the source: the number of pieces of
the given color, per piece type. -/
def Board.getPiecesCountByType (b : Board) (c : Color) (t : PieceType) : Nat :=
  (b.pieces.filter (fun e => e.2.color = c ∧ e.2.type = t)).length

/-- Board.calculateHash from the source. The loop scans the 64 squares
(the loop indices are passed to the Square constructor as file then rank)
and reassigns the hash from the last occupied square it visits, so the
digest depends only on that square; built as in the source from the piece
type id, color id and location, starting from 7 for an empty board. The
int32 coercion of the source never overflows on this range. -/
def calculateHashStep (b : Board) (h : Int) (sq : Square) : Int :=
  match b.getPiece sq with
  | none => h
  | some p =>
    let pieceTypeId : Int :=
      match p.type with
      | PieceType.pawn => 1
      | PieceType.knight => 2
      | PieceType.rook => 3
      | PieceType.bishop => 4
      | PieceType.queen => 5
      | PieceType.king => 6
    let pieceColorId : Int := if p.color = Color.white then 1 else 2
    31 * (128 * pieceTypeId + 64 * pieceColorId + sq.rankNumber * 8 + sq.fileNumber)

/-- The 64 squares in the scan order of Board.calculateHash. -/
def hashScanSquares : List Square :=
  (List.range 8).flatMap (fun r => (List.range 8).map (fun f => ⟨(r : Int) + 1, (f : Int) + 1⟩))

/-- Board.calculateHash from the source, as a pure function. -/
def Board.calculateHash (b : Board) : Int :=
  hashScanSquares.foldl (calculateHashStep b) 7

/-- Board.equals from the source: false when the en passant squares or any
of the four castling rights differ; otherwise every piece of this board
must be matched in color and type by the piece stored at the same key of
the other board. The source iterates only the keys of this board. -/
def Board.equals (b other : Board) : Bool :=
  if other.enPassantSquare ≠ b.enPassantSquare ∨
     other.castlingRights.short Color.white ≠ b.castlingRights.short Color.white ∨
     other.castlingRights.short Color.black ≠ b.castlingRights.short Color.black ∨
     other.castlingRights.long Color.white ≠ b.castlingRights.long Color.white ∨
     other.castlingRights.long Color.black ≠ b.castlingRights.long Color.black then
    false
  else
    b.pieces.all (fun e =>
      match other.getPiece e.1 with
      | none => false
      | some p2 => e.2.color == p2.color && e.2.type == p2.type)

/-- Board._setupInitialPieces and _setupInitialPawns entries for one
color, on the back rank and the pawn rank of that color. -/
def initialPiecesFor (c : Color) : List (Square × Piece) :=
  let rank : Int := if c = Color.white then 1 else 8
  let pawnRank : Int := if c = Color.white then 2 else 7
  [(⟨1, rank⟩, ⟨PieceType.rook, c⟩), (⟨2, rank⟩, ⟨PieceType.knight, c⟩),
   (⟨3, rank⟩, ⟨PieceType.bishop, c⟩), (⟨4, rank⟩, ⟨PieceType.queen, c⟩),
   (⟨5, rank⟩, ⟨PieceType.king, c⟩), (⟨6, rank⟩, ⟨PieceType.bishop, c⟩),
   (⟨7, rank⟩, ⟨PieceType.knight, c⟩), (⟨8, rank⟩, ⟨PieceType.rook, c⟩)] ++
  (List.range 8).map (fun f => (⟨(f : Int) + 1, pawnRank⟩, ⟨PieceType.pawn, c⟩))

/-- Board.setupDefaultBoard from the source: all castling rights granted,
no en passant square, no last move, the standard starting position. -/
def Board.setupDefaultBoard : Board :=
  ⟨initialPiecesFor Color.white ++ initialPiecesFor Color.black,
   ⟨true, true, true, true⟩, none, none⟩

/-- Result of a chess move (MoveResult enumeration of the game module). -/
inductive MoveResult where
  | MOVE_OK
  | NO_PIECE
  | NOT_YOUR_PIECE
  | ILLEGAL_PIECE_MOVE
  | IN_CHECK_AFTER_TURN
  | GAME_ENDED
deriving DecidableEq, Repr

/-- Result of a chess game (Result enumeration of the game module). -/
inductive Result where
  | ONGOING
  | WHITE_MATED
  | BLACK_MATED
  | WHITE_RESIGNED
  | BLACK_RESIGNED
  | WHITE_FLAGGED
  | BLACK_FLAGGED
  | STALEMATED
  | INSUFFICIENT_MATERIAL
  | THREEFOLD_REPETITION
  | FIFTY_MOVES
  | DRAW_AGREED
deriving DecidableEq, Repr

/-- GameState from the game module. -/
structure GameState where
  board : Board
  halfMoveClock : Nat
  currentTurn : Color
  whiteOffersDraw : Bool
  blackOffersDraw : Bool
deriving DecidableEq, Repr

/-- Game from the game module: the current state, the history of past
states (oldest first) and the result. -/
structure Game where
  currentState : GameState
  stateHistory : List GameState
  result : Result
deriving DecidableEq, Repr

/-- Fuel used by the Game entry points; ample for every position below. -/
def engineFuel : Nat := 12

/-- Game.reset from the source: default board, clock zero, white to move,
no draw offers, empty history, ongoing. -/
def Game.reset : Game :=
  ⟨⟨Board.setupDefaultBoard, 0, Color.white, false, false⟩, [], Result.ONGOING⟩

/-- Game.isConcluded from the source. -/
def Game.isConcluded (g : Game) : Bool :=
  g.result ≠ Result.ONGOING

/-- Game.takebackMove from the source: refuse when the game concluded or
the history is empty, otherwise pop the newest historical state and
recompute the candidate moves of its board. The source returns false on
refusal and undefined on success, modelled by some false and none. -/
def Game.takebackMove (g : Game) : Game × Option Bool :=
  if g.result ≠ Result.ONGOING ∨ g.stateHistory.isEmpty then (g, some false)
  else
    match g.stateHistory.getLast? with
    | none => (g, some false)
    | some prev =>
      (⟨⟨prev.board.recalculateAllPiecesMoves, prev.halfMoveClock, prev.currentTurn,
         prev.whiteOffersDraw, prev.blackOffersDraw⟩,
        g.stateHistory.dropLast, g.result⟩, none)

/-- The body of Game._validateHasSufficientMaterial, reading the board it
counts: rooks, queens or pawns, or two bishops, or three knights, or a
bishop and a knight. -/
def sufficientMaterialFor (b : Board) (side : Color) : Bool :=
  let count := b.getPiecesCountByType side
  if count PieceType.rook ≠ 0 ∨ count PieceType.queen ≠ 0 ∨ count PieceType.pawn ≠ 0 then
    true
  else if 2 ≤ count PieceType.bishop then true
  else if 3 ≤ count PieceType.knight then true
  else decide (1 ≤ count PieceType.bishop) && decide (1 ≤ count PieceType.knight)

/-- Game._validateHasSufficientMaterial from the source: the sufficiency
test on the current board. -/
def Game.validateHasSufficientMaterial (g : Game) (side : Color) : Bool :=
  sufficientMaterialFor g.currentState.board side

/-- Game.checkForInsufficientMaterial from the source: neither side has
sufficient material. -/
def Game.checkForInsufficientMaterial (g : Game) : Bool :=
  !(g.validateHasSufficientMaterial Color.white) &&
  !(g.validateHasSufficientMaterial Color.black)

/-- The body of Game.checkForThreefoldRepetition, reading the current
board and the state history: one for the current position plus every
historical state whose board hash matches and whose board is equal; three
or more is a repetition. -/
def threefoldRepetitionOn (current : Board) (hist : List GameState) : Bool :=
  let currentHash := current.calculateHash
  let amountOfPreviousSamePositions :=
    1 + (hist.filter (fun other =>
          currentHash = other.board.calculateHash ∧
          current.equals other.board = true)).length
  3 ≤ amountOfPreviousSamePositions

/-- Game.checkForThreefoldRepetition from the source. -/
def Game.checkForThreefoldRepetition (g : Game) : Bool :=
  threefoldRepetitionOn g.currentState.board g.stateHistory

/-- Game.checkForFiftyMoveRuleViolation from the source. -/
def Game.checkForFiftyMoveRuleViolation (g : Game) : Bool :=
  50 ≤ g.currentState.halfMoveClock

/-- Game.makeMove from the source: refuse when concluded, when the origin
square is empty or holds the wrong color; clone the board and attempt the
move; refuse when invalid or when the mover stays in check. On success
push the previous state, install the new board with the turn swapped and
the draw offers cleared, reset the half move clock on a capture or pawn
move (else increment it), then evaluate the termination conditions in the
fixed source order. -/
def Game.makeMove (g : Game) (fromSq toSq : Square) (extra : Option String) :
    Game × MoveResult :=
  if g.result ≠ Result.ONGOING then (g, MoveResult.GAME_ENDED)
  else
    match g.currentState.board.getPiece fromSq with
    | none => (g, MoveResult.NO_PIECE)
    | some piece =>
      if piece.color ≠ g.currentState.currentTurn then (g, MoveResult.NOT_YOUR_PIECE)
      else
        match g.currentState.board.cloneBoard.makeMoveIfValidF engineFuel fromSq toSq extra with
        | none => (g, MoveResult.ILLEGAL_PIECE_MOVE)
        | some newBoard =>
          if isInCheckF engineFuel newBoard g.currentState.currentTurn then
            (g, MoveResult.IN_CHECK_AFTER_TURN)
          else
            let previousState := g.currentState
            let clock :=
              match newBoard.lastMove with
              | some lm =>
                if lm.capture || lm.piece.type == PieceType.pawn then 0
                else previousState.halfMoveClock + 1
              | none => previousState.halfMoveClock + 1
            let cs : GameState :=
              ⟨newBoard, clock, Color.swap previousState.currentTurn, false, false⟩
            let g1 : Game := ⟨cs, g.stateHistory ++ [previousState], g.result⟩
            let res :=
              if (cs.board.getValidMovesForF engineFuel cs.currentTurn).length = 0 then
                if isInCheckF engineFuel cs.board cs.currentTurn then
                  if cs.currentTurn = Color.white then Result.WHITE_MATED
                  else Result.BLACK_MATED
                else Result.STALEMATED
              else if g1.checkForInsufficientMaterial then Result.INSUFFICIENT_MATERIAL
              else if g1.checkForThreefoldRepetition then Result.THREEFOLD_REPETITION
              else if g1.checkForFiftyMoveRuleViolation then Result.FIFTY_MOVES
              else Result.ONGOING
            (⟨cs, g.stateHistory ++ [previousState], res⟩, MoveResult.MOVE_OK)

/-- Game.resign from the source: refuse once concluded, otherwise the
given color resigns. -/
def Game.resign (g : Game) (c : Color) : Game × Bool :=
  if g.isConcluded then (g, false)
  else
    ({ g with result := if c = Color.white then Result.WHITE_RESIGNED
                        else Result.BLACK_RESIGNED }, true)

/-- Game.offerDraw from the source: refuse once concluded, otherwise set
the offer flag of the given color and conclude as an agreed draw when both
flags are set. -/
def Game.offerDraw (g : Game) (c : Color) : Game × Bool :=
  if g.isConcluded then (g, false)
  else
    let st := g.currentState
    let st1 := if c = Color.white then { st with whiteOffersDraw := true } else st
    let st2 := if c = Color.black then { st1 with blackOffersDraw := true } else st1
    let g1 : Game := { g with currentState := st2 }
    if st2.whiteOffersDraw && st2.blackOffersDraw then
      ({ g1 with result := Result.DRAW_AGREED }, true)
    else (g1, true)

/-
  Definitions written from the words of the specification, used to compare
  the embedded code against the specified behaviour.
-/

/-- Side sufficiency as worded by the spec: a side has sufficient material
iff it holds any rook, queen, or pawn, or at least two bishops, or at
least three knights, or at least one bishop and one knight together. -/
def specSideHasSufficientMaterial (count : PieceType → Nat) : Prop :=
  0 < count PieceType.rook ∨ 0 < count PieceType.queen ∨ 0 < count PieceType.pawn ∨
  2 ≤ count PieceType.bishop ∨ 3 ≤ count PieceType.knight ∨
  (1 ≤ count PieceType.bishop ∧ 1 ≤ count PieceType.knight)

/-- Termination evaluation order as worded by the spec: first zero legal
moves (mate when in check, stalemate otherwise), else insufficient
material, else threefold repetition, else the fifty move rule; the first
matching condition wins and an unmatched position stays ongoing. -/
def specTerminationOrder (noLegalMoves inCheck insufficient threefold fifty : Bool)
    (sideToMove : Color) : Result :=
  if noLegalMoves then
    if inCheck then
      if sideToMove = Color.white then Result.WHITE_MATED else Result.BLACK_MATED
    else Result.STALEMATED
  else if insufficient then Result.INSUFFICIENT_MATERIAL
  else if threefold then Result.THREEFOLD_REPETITION
  else if fifty then Result.FIFTY_MOVES
  else Result.ONGOING

/-- Square text as worded by the amended claim for the parser: exactly two
characters, an uppercase file letter A to H (character codes 65 to 72)
followed by a rank digit 1 to 8 (character codes 49 to 56). -/
def specFromString (s : String) : Option Square :=
  match s.data with
  | [c0, c1] =>
    if 65 ≤ c0.toNat ∧ c0.toNat ≤ 72 ∧ 49 ≤ c1.toNat ∧ c1.toNat ≤ 56 then
      some ⟨(c0.toNat : Int) - 65 + 1, (c1.toNat : Int) - 49 + 1⟩
    else none
  | _ => none

/-- The home square of the king of each color. -/
def kingHomeSquare (c : Color) : Square :=
  if c = Color.white then ⟨5, 1⟩ else ⟨5, 8⟩

/-
  Concrete positions and games used by counterexamples and witnesses.
-/

/-- White king on E1, white rook on H1, black rook on G8, white short
castling right held: the castle path is clear, F1 is not attacked, but the
destination G1 is attacked by the black rook. -/
def boardShortCastleG1Attacked : Board :=
  ⟨[(⟨5, 1⟩, ⟨PieceType.king, Color.white⟩), (⟨8, 1⟩, ⟨PieceType.rook, Color.white⟩),
    (⟨7, 8⟩, ⟨PieceType.rook, Color.black⟩)],
   ⟨true, false, false, false⟩, none, none⟩

/-- White king on E1 and rook on H1 with the short right held and no black
piece: every castle precondition holds. -/
def boardShortCastleOk : Board :=
  ⟨[(⟨5, 1⟩, ⟨PieceType.king, Color.white⟩), (⟨8, 1⟩, ⟨PieceType.rook, Color.white⟩)],
   ⟨true, false, false, false⟩, none, none⟩

/-- A lone white pawn on E7, one step from the promotion rank. -/
def boardPawnOnE7 : Board :=
  ⟨[(⟨5, 7⟩, ⟨PieceType.pawn, Color.white⟩)], ⟨false, false, false, false⟩, none, none⟩

/-- A white pawn on E2 with a white knight blocking E3 and E4 empty. -/
def boardPawnBlockedE3 : Board :=
  ⟨[(⟨5, 2⟩, ⟨PieceType.pawn, Color.white⟩), (⟨5, 3⟩, ⟨PieceType.knight, Color.white⟩)],
   ⟨false, false, false, false⟩, none, none⟩

/-- A game from the given board, white to move, empty history, ongoing. -/
def gameFromBoard (b : Board) (clock : Nat) : Game :=
  ⟨⟨b, clock, Color.white, false, false⟩, [], Result.ONGOING⟩

/-- King against king. -/
def boardKvK : Board :=
  ⟨[(⟨5, 1⟩, ⟨PieceType.king, Color.white⟩), (⟨5, 8⟩, ⟨PieceType.king, Color.black⟩)],
   ⟨false, false, false, false⟩, none, none⟩

/-- King and bishop against king. -/
def boardKBvK : Board :=
  ⟨[(⟨5, 1⟩, ⟨PieceType.king, Color.white⟩), (⟨3, 1⟩, ⟨PieceType.bishop, Color.white⟩),
    (⟨5, 8⟩, ⟨PieceType.king, Color.black⟩)],
   ⟨false, false, false, false⟩, none, none⟩

/-- King and rook against king. -/
def boardKRvK : Board :=
  ⟨[(⟨5, 1⟩, ⟨PieceType.king, Color.white⟩), (⟨1, 1⟩, ⟨PieceType.rook, Color.white⟩),
    (⟨5, 8⟩, ⟨PieceType.king, Color.black⟩)],
   ⟨false, false, false, false⟩, none, none⟩

/-- King and knight against king. -/
def boardKNvK : Board :=
  ⟨[(⟨5, 1⟩, ⟨PieceType.king, Color.white⟩), (⟨2, 1⟩, ⟨PieceType.knight, Color.white⟩),
    (⟨5, 8⟩, ⟨PieceType.king, Color.black⟩)],
   ⟨false, false, false, false⟩, none, none⟩

/-- White king A1 and knight C3 against black king H8 and knight D5: the
knight capture on D5 leaves two bare kings and one knight, ending the game
by insufficient material. -/
def gameKnightCapture : Game :=
  gameFromBoard
    ⟨[(⟨1, 1⟩, ⟨PieceType.king, Color.white⟩), (⟨3, 3⟩, ⟨PieceType.knight, Color.white⟩),
      (⟨8, 8⟩, ⟨PieceType.king, Color.black⟩), (⟨4, 5⟩, ⟨PieceType.knight, Color.black⟩)],
     ⟨false, false, false, false⟩, none, none⟩ 0

/-- White king A1 and rook B2 against black king H8: a quiet rook move
keeps the game ongoing. -/
def boardKingRookVsKing : Board :=
  ⟨[(⟨1, 1⟩, ⟨PieceType.king, Color.white⟩), (⟨2, 2⟩, ⟨PieceType.rook, Color.white⟩),
    (⟨8, 8⟩, ⟨PieceType.king, Color.black⟩)],
   ⟨false, false, false, false⟩, none, none⟩

/-- The king and rook game with a fresh half move clock. -/
def gameQuietRook : Game := gameFromBoard boardKingRookVsKing 0

/-- The king and rook game with the half move clock at 49, one quiet move
from the fifty move rule. -/
def gameClockAt49 : Game := gameFromBoard boardKingRookVsKing 49

/-- A game that has already concluded by resignation. -/
def gameConcluded : Game :=
  ⟨⟨boardKvK, 0, Color.white, false, false⟩, [], Result.WHITE_RESIGNED⟩

/-- An empty board with no rights and no en passant square. -/
def boardEmpty : Board :=
  ⟨[], ⟨false, false, false, false⟩, none, none⟩

/-- A board holding a single white king on A1, with the same rights and en
passant state as the empty board. -/
def boardOneKing : Board :=
  ⟨[(⟨1, 1⟩, ⟨PieceType.king, Color.white⟩)], ⟨false, false, false, false⟩, none, none⟩

def strLowerA1 : String := "a1"
def strUpperA1 : String := "A1"
def strE4 : String := "E4"

/-
  Helper lemmas.
-/

/-- The spec side sufficiency predicate is decidable. -/
instance (count : PieceType → Nat) : Decidable (specSideHasSufficientMaterial count) := by
  unfold specSideHasSufficientMaterial
  exact inferInstance

/-- One side of the sufficiency test agrees with the spec wording. -/
theorem validateHasSufficientMaterial_iff (g : Game) (side : Color) :
    g.validateHasSufficientMaterial side = true ↔
    specSideHasSufficientMaterial (g.currentState.board.getPiecesCountByType side) := by
  simp only [Game.validateHasSufficientMaterial, sufficientMaterialFor,
    specSideHasSufficientMaterial]
  split_ifs with h1 h2 h3 <;> simp_all <;> omega

/-
  C6. checkForInsufficientMaterial is true exactly when neither side has
  sufficient material in the sense of the spec, and decides the three
  concrete endgames named by the claim.
-/

/-- C6: checkForInsufficientMaterial returns true exactly when neither
side holds a rook, queen or pawn, two bishops, three knights, or a bishop
together with a knight; in particular it answers true for king versus king
and for king and bishop versus king, and false for king and rook versus
king. -/
theorem insufficientMaterialCharacterization :
    (∀ g : Game, g.checkForInsufficientMaterial = true ↔
      (¬ specSideHasSufficientMaterial
          (g.currentState.board.getPiecesCountByType Color.white) ∧
       ¬ specSideHasSufficientMaterial
          (g.currentState.board.getPiecesCountByType Color.black)))
    ∧ (gameFromBoard boardKvK 0).checkForInsufficientMaterial = true
    ∧ (gameFromBoard boardKBvK 0).checkForInsufficientMaterial = true
    ∧ (gameFromBoard boardKRvK 0).checkForInsufficientMaterial = false := by
  refine ⟨fun g => ?_, by decide, by decide, by decide⟩
  unfold Game.checkForInsufficientMaterial
  rw [Bool.and_eq_true, Bool.not_eq_true', Bool.not_eq_true']
  rw [← Bool.not_eq_true (g.validateHasSufficientMaterial Color.white),
      ← Bool.not_eq_true (g.validateHasSufficientMaterial Color.black)]
  rw [validateHasSufficientMaterial_iff, validateHasSufficientMaterial_iff]

/-- Witness for C6: king and knight versus king is also adjudicated as
insufficient material, through the characterization. -/
theorem insufficientMaterialCharacterizationWitness :
    (gameFromBoard boardKNvK 0).checkForInsufficientMaterial = true :=
  (insufficientMaterialCharacterization.1 (gameFromBoard boardKNvK 0)).mpr
    ⟨by decide, by decide⟩

/-
  C8. Board.equals: the claim says occupancy must match on every occupied
  square of either board; the source only iterates the receiver, so a
  board with extra pieces can compare equal. Corrected.
-/

/-- C8 counterexample: the empty board compares equal to a board holding a
king, although their occupancy differs, refuting the claimed iff. -/
theorem equalsIgnoresExtraPieces :
    boardEmpty.equals boardOneKing = true ∧
    boardEmpty.getPiece ⟨1, 1⟩ = none ∧
    boardOneKing.getPiece ⟨1, 1⟩ = some ⟨PieceType.king, Color.white⟩ := by
  refine ⟨by decide, by decide, by decide⟩

/-- C8 amended: equals is true iff the en passant squares and the four
castling rights match and every square occupied on the receiver holds a
piece of the same type and color on the other board; squares occupied only
on the other board are not examined. -/
theorem boardEqualsCharacterization (b other : Board) :
    b.equals other = true ↔
    (other.enPassantSquare = b.enPassantSquare ∧
     other.castlingRights.short Color.white = b.castlingRights.short Color.white ∧
     other.castlingRights.short Color.black = b.castlingRights.short Color.black ∧
     other.castlingRights.long Color.white = b.castlingRights.long Color.white ∧
     other.castlingRights.long Color.black = b.castlingRights.long Color.black ∧
     ∀ e ∈ b.pieces, ∃ p2, other.getPiece e.1 = some p2 ∧
       e.2.color = p2.color ∧ e.2.type = p2.type) := by
  unfold Board.equals
  split_ifs with h
  · simp only [false_iff]
    intro hc
    obtain ⟨hep, hsw, hsb, hlw, hlb, _⟩ := hc
    rcases h with h | h | h | h | h <;> exact h (by assumption)
  · push_neg at h
    obtain ⟨hep, hsw, hsb, hlw, hlb⟩ := h
    simp only [hep, hsw, hsb, hlw, hlb, true_and, List.all_eq_true]
    constructor
    · intro hall e he
      have := hall e he
      cases hg : other.getPiece e.1 with
      | none => rw [hg] at this; exact absurd this (by simp)
      | some p2 =>
        rw [hg] at this
        simp only [Bool.and_eq_true, beq_iff_eq] at this
        exact ⟨p2, rfl, this.1, this.2⟩
    · intro hforall e he
      obtain ⟨p2, hg, hc, ht⟩ := hforall e he
      rw [hg]
      simp [hc, ht]

/-- Witness for C8 amended: the characterization applied to the empty
board and the one king board yields their equality verdict. -/
theorem boardEqualsCharacterizationWitness :
    boardEmpty.equals boardOneKing = true :=
  (boardEqualsCharacterization boardEmpty boardOneKing).mpr
    ⟨by decide, by decide, by decide, by decide, by decide, by simp [boardEmpty]⟩

/-
  C9. Square.fromString: the source never uppercases its input, so the
  claimed case insensitivity fails. Corrected.
-/

/-- C9 counterexample: the lowercase square text a1 is rejected while the
uppercase A1 parses, refuting the claimed case insensitivity. -/
theorem fromStringLowercaseRejected :
    Square.fromString strLowerA1 = none ∧
    Square.fromString strUpperA1 = some ⟨1, 1⟩ := by
  refine ⟨by decide, by decide⟩

/-- C9 amended: fromString accepts exactly the two character strings made
of an uppercase file letter A to H followed by a rank digit 1 to 8, and
every other string yields none; equivalently it agrees everywhere with the
literal characterization specFromString. -/
theorem fromStringCharacterization (s : String) :
    Square.fromString s = specFromString s := by
  unfold Square.fromString specFromString
  cases hd : s.data with
  | nil => rfl
  | cons c0 tl =>
    cases tl with
    | nil => rfl
    | cons c1 tl2 =>
      cases tl2 with
      | cons c2 tl3 => rfl
      | nil =>
        simp only [Square.isValid]
        split_ifs with h1 h2 h2 <;> first
          | rfl
          | (exfalso; simp only [decide_eq_true_eq] at h1; omega)

/-- Witness for C9 amended: the characterization applied to the square
text E4 produces the E4 square. -/
theorem fromStringCharacterizationWitness :
    Square.fromString strE4 = some ⟨5, 4⟩ :=
  (fromStringCharacterization strE4).trans (by decide)

/-
  C10. The double pawn advance never consults the square passed over:
  only the destination must be empty. Confirmed.
-/

/-- C10: for a pawn on its starting rank, the two square advance is
accepted exactly when the destination is empty, whatever occupies the
square directly in front of the pawn (the board is universally
quantified, so the passed over square may hold any piece). -/
theorem pawnDoubleAdvanceIgnoresIntermediate (f : Nat) (b : Board) (fl : Int)
    (extra : Option String) (h1 : 1 ≤ fl) (h8 : fl ≤ 8) :
    (isMoveValidF (f + 1) b ⟨fl, 2⟩ ⟨PieceType.pawn, Color.white⟩ ⟨fl, 4⟩ extra =
       (b.getPiece ⟨fl, 4⟩).isNone) ∧
    (isMoveValidF (f + 1) b ⟨fl, 7⟩ ⟨PieceType.pawn, Color.black⟩ ⟨fl, 5⟩ extra =
       (b.getPiece ⟨fl, 5⟩).isNone) := by
  constructor
  · have hval : (⟨fl, 4⟩ : Square).isValid = true := by
      simp only [Square.isValid, decide_eq_true_eq]; omega
    have hmem : (⟨fl, 4⟩ : Square) ∈
        pieceCandidates b.castlingRights ⟨PieceType.pawn, Color.white⟩ ⟨fl, 2⟩ := by
      simp only [pieceCandidates, advanceDirection, List.mem_filter]
      refine ⟨?_, hval⟩
      simp [Square.relative]
    have hcont : (pieceCandidates b.castlingRights ⟨PieceType.pawn, Color.white⟩
        ⟨fl, 2⟩).contains ⟨fl, 4⟩ = true := List.elem_eq_true_of_mem hmem
    norm_num [isMoveValidF, hval, hcont, pawnIsMoveValid, advanceDirection]
    norm_num [hmem]
  · have hval : (⟨fl, 5⟩ : Square).isValid = true := by
      simp only [Square.isValid, decide_eq_true_eq]; omega
    have hmem : (⟨fl, 5⟩ : Square) ∈
        pieceCandidates b.castlingRights ⟨PieceType.pawn, Color.black⟩ ⟨fl, 7⟩ := by
      simp only [pieceCandidates, advanceDirection, List.mem_filter]
      refine ⟨?_, hval⟩
      simp [Square.relative]
    have hcont : (pieceCandidates b.castlingRights ⟨PieceType.pawn, Color.black⟩
        ⟨fl, 7⟩).contains ⟨fl, 5⟩ = true := List.elem_eq_true_of_mem hmem
    norm_num [isMoveValidF, hval, hcont, pawnIsMoveValid, advanceDirection]
    norm_num [hmem]
    intro hnone
    simp only [if_neg (show ¬ (Color.black = Color.white) by simp)]
    norm_num

/-- Witness for C10: on the board with a knight blocking E3 and E4 empty,
the double advance E2 to E4 is accepted. -/
theorem pawnDoubleAdvanceIgnoresIntermediateWitness :
    isMoveValidF 10 boardPawnBlockedE3 ⟨5, 2⟩ ⟨PieceType.pawn, Color.white⟩ ⟨5, 4⟩ none = true ∧
    boardPawnBlockedE3.getPiece ⟨5, 3⟩ = some ⟨PieceType.knight, Color.white⟩ :=
  ⟨((pawnDoubleAdvanceIgnoresIntermediate 9 boardPawnBlockedE3 5 none
      (by decide) (by decide)).1).trans (by decide), by decide⟩

/-- Lookup after a dictionary assignment at the same key. -/
theorem find?_setEntry_self (l : List (Square × Piece)) (sq : Square) (p : Piece) :
    (setEntry l sq p).find? (fun e => e.1 == sq) = some (sq, p) := by
  induction l with
  | nil => simp [setEntry]
  | cons e rest ih =>
    by_cases h : e.1 = sq
    · simp [setEntry, h]
    · simp [setEntry, h, List.find?, ih]

/-- Board.getPiece after Board.setPiece at the same square. -/
theorem getPiece_setPiece_self (b : Board) (sq : Square) (p : Piece) :
    (b.setPiece sq p).getPiece sq = some p := by
  unfold Board.setPiece Board.getPiece
  rw [find?_setEntry_self]

/-- The promotion guard expressed as an existence statement. -/
theorem promotionChoiceValid_iff (extra : Option String) :
    promotionChoiceValid extra = true ↔
    ∃ s, extra = some s ∧ s.length = 1 ∧
      (s = promoQ ∨ s = promoR ∨ s = promoB ∨ s = promoK ∨ s = promoN) := by
  cases extra with
  | none => simp [promotionChoiceValid]
  | some s =>
    simp only [promotionChoiceValid, Option.some.injEq]
    split_ifs with h <;> simp_all

/-
  C2. Promotion: the claim says a choice from QRBN with Q as default when
  unspecified; the source rejects an unspecified choice outright and also
  accepts the letter K. Corrected.
-/

/-- C2 counterexample: the push E7 to E8 is rejected when no promotion
choice is supplied (the claim says the default Q should make it legal),
while an explicit Q is accepted, and so is the letter K outside the
claimed set. -/
theorem promotionWithoutChoiceRejected :
    isMoveValidF 2 boardPawnOnE7 ⟨5, 7⟩ ⟨PieceType.pawn, Color.white⟩ ⟨5, 8⟩ none = false ∧
    isMoveValidF 2 boardPawnOnE7 ⟨5, 7⟩ ⟨PieceType.pawn, Color.white⟩ ⟨5, 8⟩
      (some promoQ) = true ∧
    isMoveValidF 2 boardPawnOnE7 ⟨5, 7⟩ ⟨PieceType.pawn, Color.white⟩ ⟨5, 8⟩
      (some promoK) = true := by
  refine ⟨by decide, by decide, by decide⟩

/-- C2 amended: a pawn move onto rank 1 or 8 is accepted exactly when the
move is otherwise legal (the same move with the letter Q is accepted) and
the supplied choice is a single letter among Q, R, B, K and N; an absent
choice is rejected, not defaulted. On commit, afterMove replaces the pawn
at the destination by a piece of the pawn color whose kind is rook for R,
bishop for B, knight for K or N, and queen for anything else. -/
theorem pawnPromotionChoiceCharacterization (f : Nat) (b : Board) (c : Color)
    (fromSq toSq : Square) (extra : Option String) (cap : Bool)
    (hrank : toSq.rankNumber = 1 ∨ toSq.rankNumber = 8) :
    (isMoveValidF (f + 1) b fromSq ⟨PieceType.pawn, c⟩ toSq extra = true ↔
      (isMoveValidF (f + 1) b fromSq ⟨PieceType.pawn, c⟩ toSq (some promoQ) = true ∧
       ∃ s, extra = some s ∧ s.length = 1 ∧
         (s = promoQ ∨ s = promoR ∨ s = promoB ∨ s = promoK ∨ s = promoN)))
    ∧ (pawnAfterMove b c ⟨⟨PieceType.pawn, c⟩, fromSq, toSq, cap, extra⟩).1.getPiece toSq =
        some ⟨promotionPieceType extra, c⟩ := by
  constructor
  · have hq : promotionChoiceValid (some promoQ) = true := by decide
    simp only [isMoveValidF]
    by_cases hv : toSq.isValid
    · by_cases hc2 :
        (pieceCandidates b.castlingRights ⟨PieceType.pawn, c⟩ fromSq).contains toSq
      · simp only [hv, hc2, Bool.not_true, Bool.false_eq_true, if_false]
        simp only [pawnIsMoveValid, if_pos hrank]
        simp only [Bool.and_eq_true, hq, and_true, promotionChoiceValid_iff]
      · have hnm : ¬ (toSq ∈ pieceCandidates b.castlingRights ⟨PieceType.pawn, c⟩ fromSq) := by
          simpa using hc2
        simp [hnm]
    · simp only [Bool.not_eq_true] at hv
      simp [hv]
  · simp only [pawnAfterMove]
    rw [if_pos (by simpa using hrank)]
    exact getPiece_setPiece_self _ _ _

/-- Witness for C2 amended: promoting with the letter N is accepted and
produces a knight on the promotion square. -/
theorem pawnPromotionChoiceCharacterizationWitness :
    isMoveValidF 10 boardPawnOnE7 ⟨5, 7⟩ ⟨PieceType.pawn, Color.white⟩ ⟨5, 8⟩
      (some promoN) = true ∧
    (pawnAfterMove boardPawnOnE7 Color.white
      ⟨⟨PieceType.pawn, Color.white⟩, ⟨5, 7⟩, ⟨5, 8⟩, false, some promoN⟩).1.getPiece ⟨5, 8⟩ =
      some ⟨PieceType.knight, Color.white⟩ := by
  have h := pawnPromotionChoiceCharacterization 9 boardPawnOnE7 Color.white ⟨5, 7⟩ ⟨5, 8⟩
    (some promoN) false (by decide)
  exact ⟨h.1.mpr ⟨by decide, promoN, rfl, by decide, by decide⟩, h.2.trans (by decide)⟩

/-- On valid squares the string comparison against E1 pins the square. -/
theorem asString_eq_E1_iff (loc : Square) (hv : loc.isValid = true) :
    loc.asString = strE1 ↔ loc = ⟨5, 1⟩ := by
  obtain ⟨fl, r⟩ := loc
  simp only [Square.isValid, decide_eq_true_eq] at hv
  obtain ⟨h1, h2, h3, h4⟩ := hv
  interval_cases fl <;> interval_cases r <;> decide

/-- On valid squares the string comparison against E8 pins the square. -/
theorem asString_eq_E8_iff (loc : Square) (hv : loc.isValid = true) :
    loc.asString = strE8 ↔ loc = ⟨5, 8⟩ := by
  obtain ⟨fl, r⟩ := loc
  simp only [Square.isValid, decide_eq_true_eq] at hv
  obtain ⟨h1, h2, h3, h4⟩ := hv
  interval_cases fl <;> interval_cases r <;> decide

/-- The home square rejection of _validateCanCastle holds exactly when the
king is away from its home square, for kings on valid squares. -/
theorem homeCheckFails_iff (loc : Square) (c : Color) (hv : loc.isValid = true) :
    ((c = Color.white ∧ loc.asString ≠ strE1) ∨ (c = Color.black ∧ loc.asString ≠ strE8)) ↔
    loc ≠ kingHomeSquare c := by
  cases c <;>
    simp [kingHomeSquare, asString_eq_E1_iff loc hv, asString_eq_E8_iff loc hv]

/-- Membership of the short castle destination among the king candidates:
present exactly when the short right is held and the square is on the
board. -/
theorem kingCandidates_shortDest_mem (cr : CastlingRights) (c : Color) (fl r : Int) :
    ((⟨fl + 2, r⟩ : Square) ∈ pieceCandidates cr ⟨PieceType.king, c⟩ ⟨fl, r⟩) ↔
    (cr.short c = true ∧ (⟨fl + 2, r⟩ : Square).isValid = true) := by
  by_cases hl : cr.long c <;> by_cases hs : cr.short c <;>
    simp [pieceCandidates, List.mem_filter, hl, hs, Square.relative, Square.mk.injEq,
      Square.isValid]

/-- Membership of the long castle destination among the king candidates:
present exactly when the long right is held and the square is on the
board. -/
theorem kingCandidates_longDest_mem (cr : CastlingRights) (c : Color) (fl r : Int) :
    ((⟨fl - 2, r⟩ : Square) ∈ pieceCandidates cr ⟨PieceType.king, c⟩ ⟨fl, r⟩) ↔
    (cr.long c = true ∧ (⟨fl - 2, r⟩ : Square).isValid = true) := by
  by_cases hl : cr.long c <;> by_cases hs : cr.short c <;>
    simp [pieceCandidates, List.mem_filter, hl, hs, Square.relative, Square.mk.injEq,
      Square.isValid] <;> try omega

/-- The short castle test holds exactly when the right is held, file F of
the king rank is not attacked, the king stands at home, a rook of the same
color stands on file H of the king rank, the king is not in check and the
path to that rook is clear. -/
theorem canCastleShortF_eq_true_iff (f : Nat) (b : Board) (loc : Square) (c : Color)
    (hv : loc.isValid = true) :
    canCastleShortF f b loc c = true ↔
      (b.castlingRights.short c = true ∧
       isAttackedF f b ⟨6, loc.rankNumber⟩ (some (Color.swap c)) = false ∧
       loc = kingHomeSquare c ∧
       (∃ rk, b.getPiece ⟨8, loc.rankNumber⟩ = some rk ∧
         rk.color = c ∧ rk.type = PieceType.rook) ∧
       isInCheckF f b c = false ∧
       b.isPathClear (loc.pathTo ⟨8, loc.rankNumber⟩) = true) := by
  simp only [canCastleShortF, canCastleShortGiven, validateCanCastleGiven,
    isAttackedF, isInCheckF]
  by_cases hs : b.castlingRights.short c = true
  · simp only [hs, Bool.not_true, Bool.false_eq_true, if_false, true_and]
    by_cases ha : isAttackedGiven
        (fun b2 l2 p2 t2 e2 => isMoveValidF f b2 l2 p2 t2 e2) b
        ⟨6, loc.rankNumber⟩ (some (Color.swap c)) = true
    · simp [ha]
    · rw [Bool.not_eq_true] at ha
      simp only [ha, Bool.false_eq_true, if_false, true_and]
      rw [if_congr (homeCheckFails_iff loc c hv) rfl rfl]
      by_cases hh : loc = kingHomeSquare c
      · simp only [hh, ne_eq, not_true_eq_false, if_false, true_and]
        cases hg : b.getPiece ⟨8, (kingHomeSquare c).rankNumber⟩ with
        | none => simp [hg]
        | some rk =>
          by_cases hbad : rk.color ≠ c ∨ rk.type ≠ PieceType.rook
          · rcases hbad with hbad | hbad <;> simp [hbad, hg]
          · push_neg at hbad
            obtain ⟨hcol, htyp⟩ := hbad
            simp only [hcol, htyp, ne_eq, not_true_eq_false, false_or, or_false,
              if_false]
            by_cases hchk : isInCheckGiven
                (fun b2 l2 p2 t2 e2 => isMoveValidF f b2 l2 p2 t2 e2) b c = true
            · simp [hchk, hg]
            · rw [Bool.not_eq_true] at hchk
              simp [hchk, hg, hcol, htyp]
      · simp only [hh, ne_eq, not_false_eq_true, if_true, false_and, and_false,
          false_and, iff_false]
        simp [hh]
  · rw [Bool.not_eq_true] at hs
    simp [hs]

/-- The long castle test holds exactly when the right is held, file D of
the king rank is not attacked, the king stands at home, a rook of the same
color stands on file A of the king rank, the king is not in check and the
path to that rook is clear. -/
theorem canCastleLongF_eq_true_iff (f : Nat) (b : Board) (loc : Square) (c : Color)
    (hv : loc.isValid = true) :
    canCastleLongF f b loc c = true ↔
      (b.castlingRights.long c = true ∧
       isAttackedF f b ⟨4, loc.rankNumber⟩ (some (Color.swap c)) = false ∧
       loc = kingHomeSquare c ∧
       (∃ rk, b.getPiece ⟨1, loc.rankNumber⟩ = some rk ∧
         rk.color = c ∧ rk.type = PieceType.rook) ∧
       isInCheckF f b c = false ∧
       b.isPathClear (loc.pathTo ⟨1, loc.rankNumber⟩) = true) := by
  simp only [canCastleLongF, canCastleLongGiven, validateCanCastleGiven,
    isAttackedF, isInCheckF]
  by_cases hs : b.castlingRights.long c = true
  · simp only [hs, Bool.not_true, Bool.false_eq_true, if_false, true_and]
    by_cases ha : isAttackedGiven
        (fun b2 l2 p2 t2 e2 => isMoveValidF f b2 l2 p2 t2 e2) b
        ⟨4, loc.rankNumber⟩ (some (Color.swap c)) = true
    · simp [ha]
    · rw [Bool.not_eq_true] at ha
      simp only [ha, Bool.false_eq_true, if_false, true_and]
      rw [if_congr (homeCheckFails_iff loc c hv) rfl rfl]
      by_cases hh : loc = kingHomeSquare c
      · simp only [hh, ne_eq, not_true_eq_false, if_false, true_and]
        cases hg : b.getPiece ⟨1, (kingHomeSquare c).rankNumber⟩ with
        | none => simp [hg]
        | some rk =>
          by_cases hbad : rk.color ≠ c ∨ rk.type ≠ PieceType.rook
          · rcases hbad with hbad | hbad <;> simp [hbad, hg]
          · push_neg at hbad
            obtain ⟨hcol, htyp⟩ := hbad
            simp only [hcol, htyp, ne_eq, not_true_eq_false, false_or, or_false,
              if_false]
            by_cases hchk : isInCheckGiven
                (fun b2 l2 p2 t2 e2 => isMoveValidF f b2 l2 p2 t2 e2) b c = true
            · simp [hchk, hg]
            · rw [Bool.not_eq_true] at hchk
              simp [hchk, hg, hcol, htyp]
      · simp only [hh, ne_eq, not_false_eq_true, if_true, false_and, and_false,
          false_and, iff_false]
        simp [hh]
  · rw [Bool.not_eq_true] at hs
    simp [hs]

/-- A king move two files to the right reduces to the base checks plus the
short castle test. -/
theorem kingMoveShortDest_iff (f : Nat) (b : Board) (c : Color) (fl r : Int)
    (extra : Option String) :
    isMoveValidF (f + 1) b ⟨fl, r⟩ ⟨PieceType.king, c⟩ ⟨fl + 2, r⟩ extra = true ↔
      ((⟨fl + 2, r⟩ : Square).isValid = true ∧ b.castlingRights.short c = true ∧
       canCastleShortF f b ⟨fl, r⟩ c = true) := by
  by_cases hval : (⟨fl + 2, r⟩ : Square).isValid = true
  · by_cases hmem : (⟨fl + 2, r⟩ : Square) ∈
        pieceCandidates b.castlingRights ⟨PieceType.king, c⟩ ⟨fl, r⟩
    · have hcont : (pieceCandidates b.castlingRights ⟨PieceType.king, c⟩
          ⟨fl, r⟩).contains ⟨fl + 2, r⟩ = true := List.elem_eq_true_of_mem hmem
      have hshort : b.castlingRights.short c = true :=
        ((kingCandidates_shortDest_mem b.castlingRights c fl r).mp hmem).1
      simp only [isMoveValidF, hval, hcont, Bool.not_true, Bool.false_eq_true, if_false]
      rw [if_pos (show (⟨fl, r⟩ : Square).fileNumber =
        (⟨fl + 2, r⟩ : Square).fileNumber - 2 by show (fl : Int) = fl + 2 - 2; omega)]
      simp only [hval, hshort, true_and]
      exact Iff.rfl
    · have hcont : (pieceCandidates b.castlingRights ⟨PieceType.king, c⟩
          ⟨fl, r⟩).contains ⟨fl + 2, r⟩ = false := by
        cases hcc : (pieceCandidates b.castlingRights ⟨PieceType.king, c⟩
            ⟨fl, r⟩).contains ⟨fl + 2, r⟩ with
        | false => rfl
        | true => exact absurd (List.elem_iff.mp hcc) hmem
      simp only [isMoveValidF, hval, hcont, Bool.not_true, Bool.not_false,
        Bool.false_eq_true, if_false, if_true, false_iff, not_and]
      intro _ hshort _
      exact hmem ((kingCandidates_shortDest_mem b.castlingRights c fl r).mpr ⟨hshort, hval⟩)
  · rw [Bool.not_eq_true] at hval
    simp [isMoveValidF, hval]

/-- A king move two files to the left reduces to the base checks plus the
long castle test. -/
theorem kingMoveLongDest_iff (f : Nat) (b : Board) (c : Color) (fl r : Int)
    (extra : Option String) :
    isMoveValidF (f + 1) b ⟨fl, r⟩ ⟨PieceType.king, c⟩ ⟨fl - 2, r⟩ extra = true ↔
      ((⟨fl - 2, r⟩ : Square).isValid = true ∧ b.castlingRights.long c = true ∧
       canCastleLongF f b ⟨fl, r⟩ c = true) := by
  by_cases hval : (⟨fl - 2, r⟩ : Square).isValid = true
  · by_cases hmem : (⟨fl - 2, r⟩ : Square) ∈
        pieceCandidates b.castlingRights ⟨PieceType.king, c⟩ ⟨fl, r⟩
    · have hcont : (pieceCandidates b.castlingRights ⟨PieceType.king, c⟩
          ⟨fl, r⟩).contains ⟨fl - 2, r⟩ = true := List.elem_eq_true_of_mem hmem
      have hlong : b.castlingRights.long c = true :=
        ((kingCandidates_longDest_mem b.castlingRights c fl r).mp hmem).1
      simp only [isMoveValidF, hval, hcont, Bool.not_true, Bool.false_eq_true, if_false]
      rw [if_neg (show ¬ ((⟨fl, r⟩ : Square).fileNumber =
        (⟨fl - 2, r⟩ : Square).fileNumber - 2) by show ¬ ((fl : Int) = fl - 2 - 2); omega)]
      rw [if_pos (show (⟨fl, r⟩ : Square).fileNumber =
        (⟨fl - 2, r⟩ : Square).fileNumber + 2 by show (fl : Int) = fl - 2 + 2; omega)]
      simp only [hval, hlong, true_and]
      exact Iff.rfl
    · have hcont : (pieceCandidates b.castlingRights ⟨PieceType.king, c⟩
          ⟨fl, r⟩).contains ⟨fl - 2, r⟩ = false := by
        cases hcc : (pieceCandidates b.castlingRights ⟨PieceType.king, c⟩
            ⟨fl, r⟩).contains ⟨fl - 2, r⟩ with
        | false => rfl
        | true => exact absurd (List.elem_iff.mp hcc) hmem
      simp only [isMoveValidF, hval, hcont, Bool.not_true, Bool.not_false,
        Bool.false_eq_true, if_false, if_true, false_iff, not_and]
      intro _ hlong _
      exact hmem ((kingCandidates_longDest_mem b.castlingRights c fl r).mpr ⟨hlong, hval⟩)
  · rw [Bool.not_eq_true] at hval
    simp [isMoveValidF, hval]

/-- The home square of either color puts the short castle destination on
the board. -/
theorem shortDest_valid_of_home (c : Color) :
    ((kingHomeSquare c).relative 2 0).isValid = true := by
  cases c <;> decide

/-- The home square of either color puts the long castle destination on
the board. -/
theorem longDest_valid_of_home (c : Color) :
    ((kingHomeSquare c).relative (-2) 0).isValid = true := by
  cases c <;> decide

/-
  C1. Castling: the claim requires both crossed square and destination to
  be unattacked; the source only tests the crossed square (file F for the
  short castle, file D for the long one) and never the destination.
  Corrected.
-/

/-- C1 counterexample: with the white king on E1, a white rook on H1, the
short right held and a black rook on G8, the castle move E1 to G1 is
accepted by King.isMoveValid although the destination G1 is attacked by
the black rook (and is empty); the claim asserts such a move must be
rejected. -/
theorem castleAcceptedWithDestinationAttacked :
    isMoveValidF 10 boardShortCastleG1Attacked ⟨5, 1⟩ ⟨PieceType.king, Color.white⟩
      ⟨7, 1⟩ none = true ∧
    isAttackedF 10 boardShortCastleG1Attacked ⟨7, 1⟩ (some Color.black) = true ∧
    (boardShortCastleG1Attacked.getPiece ⟨7, 1⟩).isNone = true ∧
    isAttackedF 10 boardShortCastleG1Attacked ⟨6, 1⟩ (some Color.black) = false := by
  refine ⟨by decide, by decide, by decide, by decide⟩

/-- C1 amended: for a king on a valid square, a two file king move is
accepted exactly when the corresponding castling right is held, the king
stands on its home square, a rook of its color stands on the matching
corner (file H for the short side, file A for the long side), the king is
not in check, every square between king and that rook is empty, and the
single crossed square probed by the source (file F for the short side,
file D for the long side) is not attacked by the opponent; the attack
status of the castling destination is not consulted at this level (the
game layer rejects it afterwards only through the generic self check
test). -/
theorem kingCastleCharacterization (f : Nat) (b : Board) (c : Color) (loc : Square)
    (extra : Option String) (hv : loc.isValid = true) :
    (isMoveValidF (f + 1) b loc ⟨PieceType.king, c⟩ (loc.relative 2 0) extra = true ↔
      (b.castlingRights.short c = true ∧
       isAttackedF f b ⟨6, loc.rankNumber⟩ (some (Color.swap c)) = false ∧
       loc = kingHomeSquare c ∧
       (∃ rk, b.getPiece ⟨8, loc.rankNumber⟩ = some rk ∧
         rk.color = c ∧ rk.type = PieceType.rook) ∧
       isInCheckF f b c = false ∧
       b.isPathClear (loc.pathTo ⟨8, loc.rankNumber⟩) = true))
    ∧ (isMoveValidF (f + 1) b loc ⟨PieceType.king, c⟩ (loc.relative (-2) 0) extra = true ↔
      (b.castlingRights.long c = true ∧
       isAttackedF f b ⟨4, loc.rankNumber⟩ (some (Color.swap c)) = false ∧
       loc = kingHomeSquare c ∧
       (∃ rk, b.getPiece ⟨1, loc.rankNumber⟩ = some rk ∧
         rk.color = c ∧ rk.type = PieceType.rook) ∧
       isInCheckF f b c = false ∧
       b.isPathClear (loc.pathTo ⟨1, loc.rankNumber⟩) = true)) := by
  obtain ⟨fl, r⟩ := loc
  constructor
  · have hrel : (⟨fl, r⟩ : Square).relative 2 0 = ⟨fl + 2, r⟩ := by
      simp [Square.relative]
    rw [hrel, kingMoveShortDest_iff f b c fl r extra]
    constructor
    · rintro ⟨hval, hshort, hcastle⟩
      exact (canCastleShortF_eq_true_iff f b ⟨fl, r⟩ c hv).mp hcastle
    · intro h
      refine ⟨?_, h.1, (canCastleShortF_eq_true_iff f b ⟨fl, r⟩ c hv).mpr h⟩
      have hh := h.2.2.1
      rw [show (⟨fl + 2, r⟩ : Square) = (⟨fl, r⟩ : Square).relative 2 0 from
        hrel.symm, hh]
      exact shortDest_valid_of_home c
  · have hrel : (⟨fl, r⟩ : Square).relative (-2) 0 = ⟨fl - 2, r⟩ := by
      simp [Square.relative]
      omega
    rw [hrel, kingMoveLongDest_iff f b c fl r extra]
    constructor
    · rintro ⟨hval, hlong, hcastle⟩
      exact (canCastleLongF_eq_true_iff f b ⟨fl, r⟩ c hv).mp hcastle
    · intro h
      refine ⟨?_, h.1, (canCastleLongF_eq_true_iff f b ⟨fl, r⟩ c hv).mpr h⟩
      have hh := h.2.2.1
      rw [show (⟨fl - 2, r⟩ : Square) = (⟨fl, r⟩ : Square).relative (-2) 0 from
        hrel.symm, hh]
      exact longDest_valid_of_home c

/-- Witness for C1 amended: on the clean castle board the characterization
yields acceptance of E1 to G1. -/
theorem kingCastleCharacterizationWitness :
    isMoveValidF 10 boardShortCastleOk ⟨5, 1⟩ ⟨PieceType.king, Color.white⟩
      ((⟨5, 1⟩ : Square).relative 2 0) none = true :=
  (kingCastleCharacterization 9 boardShortCastleOk Color.white ⟨5, 1⟩ none
    (by decide)).1.mpr
    ⟨by decide, by decide, by decide,
     ⟨⟨PieceType.rook, Color.white⟩, by decide, rfl, rfl⟩, by decide, by decide⟩

/-- Dictionary lookup finds a member entry when the keys are distinct. -/
theorem find?_eq_of_mem_nodup (l : List (Square × Piece))
    (h : (l.map Prod.fst).Nodup) (e : Square × Piece) (he : e ∈ l) :
    l.find? (fun x => x.1 == e.1) = some e := by
  induction l with
  | nil => cases he
  | cons a rest ih =>
    simp only [List.map_cons, List.nodup_cons] at h
    rcases List.mem_cons.mp he with rfl | hmem
    · simp [List.find?]
    · have hne : ¬ (a.1 = e.1) := by
        intro hEq
        exact h.1 (hEq ▸ List.mem_map_of_mem Prod.fst hmem)
      have hbe : (a.1 == e.1) = false := beq_eq_false_iff_ne.mpr hne
      simp only [List.find?, hbe]
      exact ih h.2 hmem

/-- Board.getPiece returns a stored entry when the keys are distinct. -/
theorem getPiece_eq_of_mem (b : Board) (h : (b.pieces.map Prod.fst).Nodup)
    (e : Square × Piece) (he : e ∈ b.pieces) : b.getPiece e.1 = some e.2 := by
  unfold Board.getPiece
  rw [find?_eq_of_mem_nodup b.pieces h e he]

/-- Board.equals is reflexive on boards with distinct keys. -/
theorem boardEquals_self (b : Board) (h : (b.pieces.map Prod.fst).Nodup) :
    b.equals b = true := by
  unfold Board.equals
  rw [if_neg (by simp)]
  rw [List.all_eq_true]
  intro e he
  rw [getPiece_eq_of_mem b h e he]
  simp

/-- Inversion of a successful Game.makeMove: the game was ongoing, the
previous state was appended to the history, the new state swaps the turn,
clears the draw offers, derives the half move clock from the recorded last
move, and the result is exactly the fixed order termination evaluation of
the new position. -/
theorem makeMove_ok_inversion (g : Game) (fromSq toSq : Square) (extra : Option String)
    (g2 : Game) (h : g.makeMove fromSq toSq extra = (g2, MoveResult.MOVE_OK)) :
    g.result = Result.ONGOING ∧
    g2.stateHistory = g.stateHistory ++ [g.currentState] ∧
    g2.currentState.currentTurn = Color.swap g.currentState.currentTurn ∧
    g2.currentState.whiteOffersDraw = false ∧
    g2.currentState.blackOffersDraw = false ∧
    g2.currentState.halfMoveClock =
      (match g2.currentState.board.lastMove with
       | some lm =>
         if lm.capture || lm.piece.type == PieceType.pawn then 0
         else g.currentState.halfMoveClock + 1
       | none => g.currentState.halfMoveClock + 1) ∧
    g2.result = specTerminationOrder
      (decide ((g2.currentState.board.getValidMovesForF engineFuel
        g2.currentState.currentTurn).length = 0))
      (isInCheckF engineFuel g2.currentState.board g2.currentState.currentTurn)
      g2.checkForInsufficientMaterial
      g2.checkForThreefoldRepetition
      g2.checkForFiftyMoveRuleViolation
      g2.currentState.currentTurn := by
  rw [Game.makeMove] at h
  split at h
  next h1 => simp at h
  next h1 =>
    split at h
    next => simp at h
    next piece hg =>
      split at h
      next => simp at h
      next hcol =>
        split at h
        next => simp at h
        next nb hm =>
          split at h
          next => simp at h
          next hchk =>
            simp only [Prod.mk.injEq] at h
            obtain ⟨hg2, _⟩ := h
            subst hg2
            refine ⟨not_not.mp h1, rfl, rfl, rfl, rfl, rfl, ?_⟩
            simp only [Game.checkForInsufficientMaterial,
              Game.validateHasSufficientMaterial, Game.checkForThreefoldRepetition,
              Game.checkForFiftyMoveRuleViolation, specTerminationOrder,
              decide_eq_true_eq]

/-
  C3. Terminal results are absorbing and Ongoing is exactly the state that
  accepts moves and draw offers. Confirmed.
-/

/-- C3: once the result is not ongoing, makeMove answers GAME_ENDED and
resign, offerDraw and takebackMove answer false, all without changing the
game; conversely an ongoing game accepts draw offers and never answers
GAME_ENDED to a move. -/
theorem terminalStateAbsorbing (g : Game) (c : Color) (fromSq toSq : Square)
    (extra : Option String) :
    (g.result ≠ Result.ONGOING →
      (g.makeMove fromSq toSq extra = (g, MoveResult.GAME_ENDED) ∧
       g.resign c = (g, false) ∧
       g.offerDraw c = (g, false) ∧
       g.takebackMove = (g, some false)))
    ∧ (g.result = Result.ONGOING →
      ((g.offerDraw c).2 = true ∧
       (g.makeMove fromSq toSq extra).2 ≠ MoveResult.GAME_ENDED)) := by
  constructor
  · intro h
    refine ⟨?_, ?_, ?_, ?_⟩
    · rw [Game.makeMove, if_pos h]
    · rw [Game.resign, if_pos (by simpa [Game.isConcluded] using h)]
    · rw [Game.offerDraw, if_pos (by simpa [Game.isConcluded] using h)]
    · rw [Game.takebackMove, if_pos (Or.inl h)]
  · intro h
    constructor
    · rw [Game.offerDraw, if_neg (by simpa [Game.isConcluded] using h)]
      split <;> split <;> dsimp only <;> split <;> rfl
    · rw [Game.makeMove, if_neg (by simp [h])]
      split
      · simp
      · split
        · simp
        · split
          · simp
          · split
            · simp
            · simp

/-- Witness for C3: the concluded resignation game absorbs a move attempt
and the ongoing rook game accepts a draw offer. -/
theorem terminalStateAbsorbingWitness :
    gameConcluded.makeMove ⟨1, 1⟩ ⟨1, 2⟩ none = (gameConcluded, MoveResult.GAME_ENDED) ∧
    (gameQuietRook.offerDraw Color.white).2 = true :=
  ⟨((terminalStateAbsorbing gameConcluded Color.white ⟨1, 1⟩ ⟨1, 2⟩ none).1
      (by decide)).1,
   ((terminalStateAbsorbing gameQuietRook Color.white ⟨1, 1⟩ ⟨1, 2⟩ none).2 rfl).1⟩

/-
  C4. After every successful move the result is the fixed order
  termination evaluation of the new position. Confirmed.
-/

/-- C4: on every successful makeMove the resulting result field equals the
spec ordered termination evaluation (no legal moves deciding mate or
stalemate first, then insufficient material, then threefold repetition,
then the fifty move rule, else ongoing) of the new position. -/
theorem terminationOrderMatchesSpec (g : Game) (fromSq toSq : Square)
    (extra : Option String) (g2 : Game)
    (h : g.makeMove fromSq toSq extra = (g2, MoveResult.MOVE_OK)) :
    g2.result = specTerminationOrder
      (decide ((g2.currentState.board.getValidMovesForF engineFuel
        g2.currentState.currentTurn).length = 0))
      (isInCheckF engineFuel g2.currentState.board g2.currentState.currentTurn)
      g2.checkForInsufficientMaterial
      g2.checkForThreefoldRepetition
      g2.checkForFiftyMoveRuleViolation
      g2.currentState.currentTurn :=
  (makeMove_ok_inversion g fromSq toSq extra g2 h).2.2.2.2.2.2

/-- Witness for C4: a quiet rook move in the small rook endgame leaves the
game ongoing through the ordered evaluation. -/
theorem terminationOrderMatchesSpecWitness :
    (gameQuietRook.makeMove ⟨2, 2⟩ ⟨2, 3⟩ none).1.result = Result.ONGOING :=
  (terminationOrderMatchesSpec gameQuietRook ⟨2, 2⟩ ⟨2, 3⟩ none
    (gameQuietRook.makeMove ⟨2, 2⟩ ⟨2, 3⟩ none).1 (by decide)).trans (by decide)

/-
  C5. The half move clock: starts at zero, resets on captures and pawn
  moves, increments otherwise, and reaching 50 triggers the fifty move
  result when no earlier condition applies. Confirmed.
-/

/-- C5: the clock of a fresh game is zero; a successful move sets it to
zero when the recorded move is a capture or a pawn move and to the old
clock plus one otherwise; and when the updated clock has reached 50 while
the new side still has legal moves and neither insufficient material nor
threefold repetition applies, the result becomes FIFTY_MOVES. -/
theorem halfMoveClockBehaviour :
    Game.reset.currentState.halfMoveClock = 0 ∧
    ∀ (g : Game) (fromSq toSq : Square) (extra : Option String) (g2 : Game),
      g.makeMove fromSq toSq extra = (g2, MoveResult.MOVE_OK) →
      ((∀ lm, g2.currentState.board.lastMove = some lm →
          g2.currentState.halfMoveClock =
            (if lm.capture || lm.piece.type == PieceType.pawn then 0
             else g.currentState.halfMoveClock + 1)) ∧
       (50 ≤ g2.currentState.halfMoveClock →
        (g2.currentState.board.getValidMovesForF engineFuel
          g2.currentState.currentTurn).length ≠ 0 →
        g2.checkForInsufficientMaterial = false →
        g2.checkForThreefoldRepetition = false →
        g2.result = Result.FIFTY_MOVES)) := by
  refine ⟨rfl, fun g fromSq toSq extra g2 h => ?_⟩
  obtain ⟨-, -, -, -, -, hclock, hres⟩ := makeMove_ok_inversion g fromSq toSq extra g2 h
  constructor
  · intro lm hlm
    rw [hclock, hlm]
  · intro h50 hlen hins hthree
    rw [hres, specTerminationOrder]
    rw [if_neg (by simpa using hlen)]
    rw [hins, hthree]
    have hfifty : g2.checkForFiftyMoveRuleViolation = true := by
      simp [Game.checkForFiftyMoveRuleViolation, h50]
    rw [hfifty]
    simp

/-- Witness for C5: with the clock at 49 a quiet rook move raises it to 50
and ends the game by the fifty move rule. -/
theorem halfMoveClockBehaviourWitness :
    (gameClockAt49.makeMove ⟨2, 2⟩ ⟨2, 3⟩ none).1.currentState.halfMoveClock = 50 ∧
    (gameClockAt49.makeMove ⟨2, 2⟩ ⟨2, 3⟩ none).1.result = Result.FIFTY_MOVES := by
  have h := (halfMoveClockBehaviour.2 gameClockAt49 ⟨2, 2⟩ ⟨2, 3⟩ none
    (gameClockAt49.makeMove ⟨2, 2⟩ ⟨2, 3⟩ none).1 (by decide))
  refine ⟨?_, h.2 (by decide) (by decide) (by decide) (by decide)⟩
  exact (h.1 ⟨⟨PieceType.rook, Color.white⟩, ⟨2, 2⟩, ⟨2, 3⟩, false, none⟩
    (by decide)).trans (by decide)

/-
  C7. Takeback after a successful move: the claim holds only when the move
  left the game ongoing; a game ending move cannot be taken back, because
  takebackMove refuses on concluded games. Corrected.
-/

/-- C7 counterexample: in the four piece knight game, the capture on D5 is
a successful move that ends the game by insufficient material; the
following takebackMove refuses, the current board stays different from the
pre move board and the turn is not restored, refuting the claim as stated
for this successful move. -/
theorem takebackAfterGameEndingMove :
    (gameKnightCapture.makeMove ⟨3, 3⟩ ⟨4, 5⟩ none).2 = MoveResult.MOVE_OK ∧
    (gameKnightCapture.makeMove ⟨3, 3⟩ ⟨4, 5⟩ none).1.result =
      Result.INSUFFICIENT_MATERIAL ∧
    (gameKnightCapture.makeMove ⟨3, 3⟩ ⟨4, 5⟩ none).1.takebackMove =
      ((gameKnightCapture.makeMove ⟨3, 3⟩ ⟨4, 5⟩ none).1, some false) ∧
    ((gameKnightCapture.makeMove ⟨3, 3⟩ ⟨4, 5⟩ none).1.currentState.board.equals
      gameKnightCapture.currentState.board) = false ∧
    (gameKnightCapture.makeMove ⟨3, 3⟩ ⟨4, 5⟩ none).1.currentState.currentTurn ≠
      gameKnightCapture.currentState.currentTurn := by
  refine ⟨by decide, by decide, by decide, by decide, by decide⟩

/-- C7 amended: after a successful makeMove whose resulting game is still
ongoing, takebackMove restores a current board equal to the pre move board
and restores the turn to the mover (the board keys are assumed distinct,
which holds for every JavaScript object dictionary). -/
theorem takebackRestoresWhenOngoing (g : Game) (fromSq toSq : Square)
    (extra : Option String) (g2 : Game)
    (hnd : (g.currentState.board.pieces.map Prod.fst).Nodup)
    (h : g.makeMove fromSq toSq extra = (g2, MoveResult.MOVE_OK))
    (hres : g2.result = Result.ONGOING) :
    g2.takebackMove.1.currentState.board.equals g.currentState.board = true ∧
    g2.takebackMove.1.currentState.currentTurn = g.currentState.currentTurn := by
  obtain ⟨-, hhist, -, -, -, -, -⟩ := makeMove_ok_inversion g fromSq toSq extra g2 h
  rw [Game.takebackMove,
    if_neg (by simp [hres, hhist])]
  rw [hhist]
  rw [List.getLast?_concat]
  simp [Board.recalculateAllPiecesMoves, boardEquals_self _ hnd]

/-- Witness for C7 amended: the quiet rook move leaves the game ongoing
and is fully undone by takebackMove. -/
theorem takebackRestoresWhenOngoingWitness :
    (gameQuietRook.makeMove ⟨2, 2⟩ ⟨2, 3⟩ none).1.takebackMove.1.currentState.board.equals
      gameQuietRook.currentState.board = true ∧
    (gameQuietRook.makeMove ⟨2, 2⟩ ⟨2, 3⟩ none).1.takebackMove.1.currentState.currentTurn =
      Color.white :=
  takebackRestoresWhenOngoing gameQuietRook ⟨2, 2⟩ ⟨2, 3⟩ none
    (gameQuietRook.makeMove ⟨2, 2⟩ ⟨2, 3⟩ none).1 (by decide) (by decide) (by decide)

end ChessBot
